import Mathlib

/-!
Verification development for the whispervoice_app repository.

Shallow embedding of the components the claims concern:
* `AudioAccumulator` (src/stt/whisper_stream.py)
* `RecordingToggle` (src/hotkey/global_hotkey.py)
* `LatencyTimer` / `LatencyLogger` (src/metrics/latency.py)
* `TextInjector.inject` (src/input/send_input.py)
* `SileroVAD` / `SimpleEnergyVAD` (src/vad/silero_vad.py)

Python floats are modelled by rationals; the configurations appearing in the
claims only involve float computations whose IEEE-754 results coincide with
the exact rational values (checked case by case in the comments below).
External effects (the torch VAD model, the Win32 SendInput call, wall-clock
reads) are passed in as explicit oracle parameters, so every definition is
executable.
-/

set_option maxRecDepth 16000

namespace WVA

/-! ## AudioAccumulator (src/stt/whisper_stream.py, lines 235-314)

A byte is modelled as a natural number; a byte string as `List ℕ`. -/

/-- Constructor arguments of `AudioAccumulator.__init__`. -/
structure AccConfig where
  maxDurationS : ℚ
  sampleRate : ℕ

/-- `max_bytes = int(self.max_duration_s * self.sample_rate * 2)` from
`AudioAccumulator.add`.  Python's `int()` truncates toward zero; for the
nonnegative configurations used here this is the floor.  For
`max_duration_s = 0.1, sample_rate = 16000` the float product is exactly
`3200.0`, matching the rational value. -/
def AccConfig.maxBytes (c : AccConfig) : ℕ :=
  (c.maxDurationS * c.sampleRate * 2).floor.toNat

/-- Mutable state of `AudioAccumulator`: `self._buffer` and
`self._is_accumulating`. -/
structure AccState where
  buffer : List ℕ
  isAccumulating : Bool
  deriving DecidableEq

/-- State right after `__init__`, `clear()`, or a flush that returned data. -/
def AccState.init : AccState := ⟨[], false⟩

/-- `AudioAccumulator.add(audio_chunk, is_speech)`: returns the optional
completed utterance together with the successor state. -/
def AccState.add (cfg : AccConfig) (s : AccState) (chunk : List ℕ)
    (isSpeech : Bool) : Option (List ℕ) × AccState :=
  if isSpeech then
    let buf := s.buffer ++ chunk
    if cfg.maxBytes ≤ buf.length then (some buf, AccState.init)
    else (none, ⟨buf, true⟩)
  else
    if s.isAccumulating ∧ s.buffer.length > 0 then (some s.buffer, AccState.init)
    else (none, s)

/-- `AudioAccumulator.flush()`. -/
def AccState.flush (s : AccState) : Option (List ℕ) × AccState :=
  if s.buffer.length > 0 then (some s.buffer, AccState.init)
  else (none, s)

/-- `AudioAccumulator.clear()`. -/
def AccState.clear (_ : AccState) : AccState := AccState.init

/-- Runs a sequence of `add` calls, collecting each call's return value. -/
def addRun (cfg : AccConfig) : AccState → List (List ℕ × Bool) →
    List (Option (List ℕ)) × AccState
  | s, [] => ([], s)
  | s, f :: fs =>
    let step := AccState.add cfg s f.1 f.2
    let rest := addRun cfg step.2 fs
    (step.1 :: rest.1, rest.2)

/-- Concatenation, in call order, of the frames flagged as speech. -/
def speechConcat (frames : List (List ℕ × Bool)) : List ℕ :=
  frames.foldr (fun f acc => if f.2 then f.1 ++ acc else acc) []

/-! ## RecordingToggle (src/hotkey/global_hotkey.py, lines 237-298) -/

/-- Mutable state of `RecordingToggle`: `self._is_recording` and
`self._last_toggle_time` (milliseconds). -/
structure ToggleState where
  isRecording : Bool
  lastToggleTime : ℚ
  deriving DecidableEq

/-- State right after `__init__`. -/
def ToggleState.init : ToggleState := ⟨false, 0⟩

/-- Observable outcome of one `toggle()` call: the successor state, the
returned boolean (`self._is_recording` at the end of the call), and whether
the `on_start` / `on_stop` callbacks were invoked.  Exceptions raised by the
callbacks are caught inside `toggle` (the source wraps both calls in
`try/except`), so the embedding is a total function: nothing propagates. -/
structure ToggleOutcome where
  state : ToggleState
  returned : Bool
  startFired : Bool
  stopFired : Bool
  deriving DecidableEq

/-- `RecordingToggle._check_debounce`: reads the current time (passed here as
`now`, in ms); on success it updates `self._last_toggle_time`. -/
def checkDebounce (debounceMs : ℚ) (s : ToggleState) (now : ℚ) :
    Bool × ToggleState :=
  if now - s.lastToggleTime < debounceMs then (false, s)
  else (true, ⟨s.isRecording, now⟩)

/-- `RecordingToggle.toggle()`.  `hasStart`/`hasStop` model whether the
optional callbacks are set; `startRaises`/`stopRaises` model whether the
callback, if invoked, raises an exception (caught at the call site).  On a
start whose callback raises, `self._is_recording` is reset to `False`; a
raising stop callback performs no such rollback. -/
def toggle (debounceMs : ℚ) (s : ToggleState) (now : ℚ)
    (hasStart startRaises hasStop stopRaises : Bool) : ToggleOutcome :=
  let chk := checkDebounce debounceMs s now
  if chk.1 = false then ⟨chk.2, chk.2.isRecording, false, false⟩
  else
    let s₁ := chk.2
    if s₁.isRecording then
      let s₂ : ToggleState := ⟨false, s₁.lastToggleTime⟩
      -- on_stop may raise; the exception is logged, state is kept
      ⟨s₂, s₂.isRecording, false, hasStop⟩
    else
      let s₂ : ToggleState := ⟨true, s₁.lastToggleTime⟩
      if hasStart ∧ startRaises then
        ⟨⟨false, s₂.lastToggleTime⟩, false, true, false⟩
      else
        ⟨s₂, s₂.isRecording, hasStart, false⟩

/-! ## LatencyTimer / LatencyLogger (src/metrics/latency.py) -/

/-- The marks held by `LatencyTimer._timestamps`: at most one timestamp per
`MeasurementPoint`, in milliseconds. -/
structure TimerState where
  speechEnd : Option ℚ
  sttStart : Option ℚ
  sttEnd : Option ℚ
  injectionStart : Option ℚ
  injectionEnd : Option ℚ
  deriving DecidableEq

/-- `LatencyMeasurement` (the wall-clock `timestamp` field is omitted). -/
structure Measurement where
  speechEndToSttStartMs : ℚ := 0
  sttDurationMs : ℚ := 0
  sttEndToInjectionMs : ℚ := 0
  injectionDurationMs : ℚ := 0
  totalLatencyMs : ℚ := 0
  textLength : ℕ := 0
  deriving DecidableEq

/-- `LatencyTimer.get_measurement(text_length)`: mirrors the nesting of the
source — every interval, including `stt_duration_ms`, is computed inside the
outer `if SPEECH_END in self._timestamps` guard. -/
def getMeasurement (ts : TimerState) (textLength : ℕ) : Measurement :=
  let m0 : Measurement := { textLength := textLength }
  match ts.speechEnd with
  | none => m0
  | some se =>
    let m1 := match ts.sttStart with
      | some st => { m0 with speechEndToSttStartMs := st - se }
      | none => m0
    let m2 := match ts.sttEnd with
      | none => m1
      | some en =>
        let m2a := match ts.sttStart with
          | some st => { m1 with sttDurationMs := en - st }
          | none => m1
        match ts.injectionStart with
        | some js => { m2a with sttEndToInjectionMs := js - en }
        | none => m2a
    match ts.injectionEnd with
    | none => m2
    | some ie =>
      let m3a := match ts.injectionStart with
        | some js => { m2 with injectionDurationMs := ie - js }
        | none => m2
      { m3a with totalLatencyMs := ie - se }

/-- `LatencyLogger`: `self.max_history` and the deque `self._measurements`
(oldest first, `maxlen = max_history`). -/
structure LoggerState where
  maxHistory : ℕ
  measurements : List Measurement

/-- Logger right after `__init__` (default `max_history = 1000`). -/
def LoggerState.init : LoggerState := ⟨1000, []⟩

/-- `LatencyLogger.log(measurement)`: deque append, evicting from the left
when the length would exceed `maxlen`. -/
def LoggerState.log (lg : LoggerState) (m : Measurement) : LoggerState :=
  let l := lg.measurements ++ [m]
  ⟨lg.maxHistory, l.drop (l.length - lg.maxHistory)⟩

/-- `LatencyLogger.check_target(target_ms)`: `True` on an empty history,
otherwise compares the most recent measurement's `total_latency_ms`. -/
def LoggerState.checkTarget (lg : LoggerState) (targetMs : ℚ) : Bool :=
  match lg.measurements.getLast? with
  | none => true
  | some recent => recent.totalLatencyMs ≤ targetMs

/-! ## TextInjector.inject (src/input/send_input.py, lines 154-200)

`inject_char` issues a Win32 `SendInput` call whose success depends on the
environment; it is abstracted by the oracle `ok : ℕ → Bool`, giving the
success of the i-th character attempt.  The wall-clock `elapsed_ms` field
and the inter-character sleeps are timing effects with no influence on the
other fields and are omitted. -/

/-- `InjectionResult` without the wall-clock `elapsed_ms` field. -/
structure InjectionResult where
  success : Bool
  charactersSent : ℕ
  failedCharacters : List Char
  deriving DecidableEq

/-- The per-character loop of `TextInjector.inject`, starting at index `i`:
counts successful characters and collects failed ones in order. -/
def injectLoop (ok : ℕ → Bool) : ℕ → List Char → ℕ × List Char
  | _, [] => (0, [])
  | i, c :: rest =>
    let r := injectLoop ok (i + 1) rest
    if ok i then (r.1 + 1, r.2) else (r.1, c :: r.2)

/-- `TextInjector.inject(text)` (text as a list of characters). -/
def inject (ok : ℕ → Bool) (text : List Char) : InjectionResult :=
  if text.isEmpty then ⟨true, 0, []⟩
  else
    let r := injectLoop ok 0 text
    ⟨r.2 = [], r.1, r.2⟩

/-! ## SileroVAD / SimpleEnergyVAD (src/vad/silero_vad.py)

Audio frames enter as int16 sample lists (the `np.frombuffer` view of the
byte string).  The torch model scoring a 512-sample window is the external
collaborator and is abstracted by an oracle `model : List ℚ → ℚ`; the energy
variant's float RMS-to-decibel computation is likewise abstracted by
`dbOf : List ℤ → ℚ`.  Both state machines are embedded exactly. -/

/-- `VoiceState` enum. -/
inductive VoiceState where
  | SILENCE
  | SPEECH
  deriving DecidableEq

/-- `VADResult` dataclass. -/
structure VADResult where
  isSpeech : Bool
  confidence : ℚ
  state : VoiceState
  deriving DecidableEq

/-- Constructor arguments of `SileroVAD.__init__`. -/
structure SileroConfig where
  threshold : ℚ
  minSpeechDurationMs : ℚ
  minSilenceDurationMs : ℚ

/-- The debounce core of the Silero state machine:
`(self._state, self._speech_frames, self._silence_frames)`. -/
structure VadCore where
  state : VoiceState
  speechFrames : ℕ
  silenceFrames : ℕ
  deriving DecidableEq

/-- Core after `__init__` / `reset()`. -/
def VadCore.init : VadCore := ⟨VoiceState.SILENCE, 0, 0⟩

/-- `frame_duration_ms = (512 / 16000) * 1000` from `_process_chunk`.  The
IEEE-754 double evaluation of this expression is exactly `32.0`, so the
rational value coincides. -/
def frameDurationMs : ℚ := 512 / 16000 * 1000

/-- `SileroVAD._process_chunk` on one 512-sample window whose model score is
`conf`: threshold comparison, run counters, duration conversion, debounced
state transition. -/
def processChunk (cfg : SileroConfig) (conf : ℚ) (c : VadCore) :
    VADResult × VadCore :=
  let isSpeechFrame : Bool := cfg.threshold ≤ conf
  let sp := if isSpeechFrame then c.speechFrames + 1 else 0
  let si := if isSpeechFrame then 0 else c.silenceFrames + 1
  let speechDurationMs : ℚ := sp * frameDurationMs
  let silenceDurationMs : ℚ := si * frameDurationMs
  let st :=
    match c.state with
    | VoiceState.SILENCE =>
      if cfg.minSpeechDurationMs ≤ speechDurationMs then VoiceState.SPEECH
      else VoiceState.SILENCE
    | VoiceState.SPEECH =>
      if cfg.minSilenceDurationMs ≤ silenceDurationMs then VoiceState.SILENCE
      else VoiceState.SPEECH
  (⟨decide (st = VoiceState.SPEECH), conf, st⟩, ⟨st, sp, si⟩)

/-- Full `SileroVAD` mutable state: the debounce core plus `self._buffer`
(float32 samples accumulated across calls). -/
structure SileroState where
  core : VadCore
  buffer : List ℚ

/-- State after `__init__` / `reset()`. -/
def SileroState.init : SileroState := ⟨VadCore.init, []⟩

/-- `_bytes_to_float`: int16 samples scaled by `1 / 32768`. -/
def bytesToFloat (samples : List ℤ) : List ℚ :=
  List.map (fun x : ℤ => (x : ℚ) / 32768) samples

/-- The `while len(self._buffer) >= 512` loop of `SileroVAD.process`:
consumes the buffer window by window, threading the debounce core. -/
def sileroLoop (model : List ℚ → ℚ) (cfg : SileroConfig) (c : VadCore)
    (buf : List ℚ) : List VADResult × VadCore × List ℚ :=
  if 512 ≤ buf.length then
    ((processChunk cfg (model (buf.take 512)) c).1 ::
        (sileroLoop model cfg (processChunk cfg (model (buf.take 512)) c).2
          (buf.drop 512)).1,
      (sileroLoop model cfg (processChunk cfg (model (buf.take 512)) c).2
        (buf.drop 512)).2)
  else ([], c, buf)
termination_by buf.length
decreasing_by
  simp only [List.length_drop]
  omega

/-- `SileroVAD.process(audio_chunk)`: appends the converted samples to the
remainder buffer, then emits one `VADResult` per full 512-sample window. -/
def sileroProcess (model : List ℚ → ℚ) (cfg : SileroConfig) (s : SileroState)
    (frame : List ℤ) : List VADResult × SileroState :=
  let r := sileroLoop model cfg s.core (s.buffer ++ bytesToFloat frame)
  (r.1, ⟨r.2.1, r.2.2⟩)

/-- `SileroVAD.is_speech(audio_chunk)`: last decision's flag, or the current
debounced state if no window was completed. -/
def sileroIsSpeech (model : List ℚ → ℚ) (cfg : SileroConfig) (s : SileroState)
    (frame : List ℤ) : Bool × SileroState :=
  let r := sileroProcess model cfg s frame
  match r.1.getLast? with
  | none => (decide (r.2.core.state = VoiceState.SPEECH), r.2)
  | some d => (d.isSpeech, r.2)

/-- Constructor arguments of `SimpleEnergyVAD.__init__`. -/
structure EnergyConfig where
  thresholdDb : ℚ
  minSpeechDurationMs : ℚ
  minSilenceDurationMs : ℚ
  sampleRate : ℕ

/-- Mutable state of `SimpleEnergyVAD`:
`(self._state, self._speech_samples, self._silence_samples)`. -/
structure EnergyState where
  state : VoiceState
  speechSamples : ℕ
  silenceSamples : ℕ
  deriving DecidableEq

/-- State after `__init__` / `reset()`. -/
def EnergyState.init : EnergyState := ⟨VoiceState.SILENCE, 0, 0⟩

/-- `SimpleEnergyVAD.process(audio_chunk)`: scores the whole frame at once
(`dbOf` abstracts the RMS-to-decibel float computation) and returns a single
`VADResult` — not a list.  There is no remainder buffer and no window
requirement: every call yields exactly one decision. -/
def energyProcess (dbOf : List ℤ → ℚ) (cfg : EnergyConfig) (s : EnergyState)
    (frame : List ℤ) : VADResult × EnergyState :=
  let db := dbOf frame
  let isSpeechFrame : Bool := cfg.thresholdDb ≤ db
  let chunkSamples := frame.length
  let sp := if isSpeechFrame then s.speechSamples + chunkSamples else 0
  let si := if isSpeechFrame then 0 else s.silenceSamples + chunkSamples
  let speechDurationMs : ℚ := (sp : ℚ) / cfg.sampleRate * 1000
  let silenceDurationMs : ℚ := (si : ℚ) / cfg.sampleRate * 1000
  let st :=
    match s.state with
    | VoiceState.SILENCE =>
      if cfg.minSpeechDurationMs ≤ speechDurationMs then VoiceState.SPEECH
      else VoiceState.SILENCE
    | VoiceState.SPEECH =>
      if cfg.minSilenceDurationMs ≤ silenceDurationMs then VoiceState.SILENCE
      else VoiceState.SPEECH
  let confidence : ℚ := min 1 (max 0 ((db + 60) / 60))
  (⟨decide (st = VoiceState.SPEECH), confidence, st⟩, ⟨st, sp, si⟩)

/-- `SimpleEnergyVAD.is_speech(audio_chunk)`. -/
def energyIsSpeech (dbOf : List ℤ → ℚ) (cfg : EnergyConfig) (s : EnergyState)
    (frame : List ℤ) : Bool × EnergyState :=
  let r := energyProcess dbOf cfg s frame
  (r.1.isSpeech, r.2)

/-! ## Theorems -/

theorem speechConcat_cons (f : List ℕ × Bool) (fs : List (List ℕ × Bool)) :
    speechConcat (f :: fs) =
      if f.2 then f.1 ++ speechConcat fs else speechConcat fs := rfl

theorem addRun_cons (cfg : AccConfig) (s : AccState) (f : List ℕ × Bool)
    (fs : List (List ℕ × Bool)) :
    addRun cfg s (f :: fs) =
      ((AccState.add cfg s f.1 f.2).1 ::
          (addRun cfg (AccState.add cfg s f.1 f.2).2 fs).1,
        (addRun cfg (AccState.add cfg s f.1 f.2).2 fs).2) := rfl

/-- If every `add` of a run returned `none`, the buffer afterwards holds the
initial buffer followed by the concatenation of the speech-flagged frames. -/
theorem addRun_none_buffer (cfg : AccConfig) :
    ∀ (frames : List (List ℕ × Bool)) (s : AccState),
      (∀ o ∈ (addRun cfg s frames).1, o = none) →
      ((addRun cfg s frames).2).buffer = s.buffer ++ speechConcat frames := by
  intro frames
  induction frames with
  | nil => intro s _; simp [addRun, speechConcat]
  | cons f fs ih =>
    intro s h
    rw [addRun_cons] at h ⊢
    have h1 : (AccState.add cfg s f.1 f.2).1 = none := h _ (List.mem_cons_self _ _)
    have h2 : ∀ o ∈ (addRun cfg (AccState.add cfg s f.1 f.2).2 fs).1, o = none :=
      fun o ho => h o (List.mem_cons_of_mem _ ho)
    rw [speechConcat_cons]
    by_cases hsp : f.2 = true
    · -- speech frame: `add` appended the chunk and, having returned `none`,
      -- stayed below the cap
      have hs2 : (AccState.add cfg s f.1 f.2).2 = ⟨s.buffer ++ f.1, true⟩ := by
        unfold AccState.add at h1 ⊢
        rw [hsp] at h1 ⊢
        simp only [if_true] at h1 ⊢
        by_cases hcap : cfg.maxBytes ≤ (s.buffer ++ f.1).length
        · rw [if_pos hcap] at h1; exact absurd h1 (by simp)
        · rw [if_neg hcap]
      rw [ih _ h2, hs2, hsp]
      simp [List.append_assoc]
    · -- silence frame: `add` returned `none`, so the state is unchanged
      have hb : f.2 = false := by revert hsp; cases f.2 <;> simp
      have hs2 : (AccState.add cfg s f.1 f.2).2 = s := by
        unfold AccState.add at h1 ⊢
        rw [hb] at h1 ⊢
        simp only [Bool.false_eq_true, if_false] at h1 ⊢
        by_cases hacc : s.isAccumulating ∧ s.buffer.length > 0
        · rw [if_pos hacc] at h1; exact absurd h1 (by simp)
        · rw [if_neg hacc]
      rw [ih _ h2, hs2, hb]
      simp

/-- Evaluation rule for `AccConfig.maxBytes` when the product is a whole
number (as in every configuration the claims use). -/
theorem maxBytes_eq (c : AccConfig) (n : ℕ)
    (h : c.maxDurationS * c.sampleRate * 2 = (n : ℚ)) : c.maxBytes = n := by
  unfold AccConfig.maxBytes
  rw [h, Rat.floor_def']
  simp

/-- Claim C1: after a flush or clear, for a sequence of `add` calls none of
which returned a buffer, the next `flush()` returns exactly the
concatenation, in call order, of the frames passed with `is_speech=true`
(`none` when that concatenation is empty, matching the empty-buffer flush
behaviour). -/
theorem C1_flush_returns_speech_concat (cfg : AccConfig)
    (frames : List (List ℕ × Bool))
    (h : ∀ o ∈ (addRun cfg AccState.init frames).1, o = none) :
    ((addRun cfg AccState.init frames).2.flush).1 =
      if speechConcat frames = [] then none else some (speechConcat frames) := by
  have hb : (addRun cfg AccState.init frames).2.buffer = speechConcat frames := by
    rw [addRun_none_buffer cfg frames AccState.init h]
    rfl
  unfold AccState.flush
  rw [hb]
  by_cases hc : speechConcat frames = []
  · simp [hc]
  · have hl : 0 < (speechConcat frames).length := List.length_pos.mpr hc
    simp [hc, hl]

/-- Witness for C1 at a concrete run: a leading silence frame and two speech
frames, with `max_duration_s = 30`. -/
theorem C1_flush_returns_speech_concat_witness :
    ((addRun ⟨30, 16000⟩ AccState.init
        [([], false), ([1, 2], true), ([3, 4], true)]).2.flush).1 =
      if speechConcat [([], false), ([1, 2], true), ([3, 4], true)] = []
      then none
      else some (speechConcat [([], false), ([1, 2], true), ([3, 4], true)]) :=
  C1_flush_returns_speech_concat ⟨30, 16000⟩ _ (by
    have hm : (AccConfig.maxBytes ⟨30, 16000⟩) = 960000 :=
      maxBytes_eq _ _ (by norm_num)
    intro o ho
    simp only [addRun_cons, addRun, AccState.add, AccState.init, hm] at ho
    norm_num at ho
    simp [ho])

/-- Claim C2 is false as stated: with `max_duration_s=0.1, sample_rate=16000`
(3200-byte cap), a single speech `add` of 3202 bytes reaches the cap, but the
returned utterance has 3202 bytes, not exactly 3200 — the source checks the
cap after extending and returns the whole buffer. -/
theorem C2_counterexample :
    ((AccState.add ⟨1/10, 16000⟩ AccState.init (List.replicate 3202 0)
        true).1.map List.length) = some 3202 ∧ (3202 : ℕ) ≠ 3200 := by
  constructor
  · have hm : (AccConfig.maxBytes ⟨1/10, 16000⟩) = 3200 :=
      maxBytes_eq _ _ (by norm_num)
    have hlen : (AccState.init.buffer ++ List.replicate 3202 0).length = 3202 := by
      rw [List.length_append, List.length_replicate]
      rfl
    unfold AccState.add
    rw [if_pos rfl, hm, if_pos (by rw [hlen]; norm_num)]
    have h2 : Option.map List.length
        ((some (AccState.init.buffer ++ List.replicate 3202 0),
          AccState.init).1) =
        some ((AccState.init.buffer ++ List.replicate 3202 0).length) := rfl
    rw [h2, hlen]
  · decide

/-- Claim C2 (amended): with the 3200-byte cap, for every sequence of speech
`add` calls none of which returned a buffer, a further speech `add` whose
chunk brings the cumulative length to at least 3200 bytes returns the entire
accumulated buffer — at least 3200 bytes, and exactly 3200 only when the
cumulative length equals 3200 — and leaves the buffer cleared with
`accumulating` false. -/
theorem C2_cap_returns_whole_buffer (frames : List (List ℕ))
    (chunk : List ℕ)
    (h : ∀ o ∈ (addRun ⟨1/10, 16000⟩ AccState.init
        (frames.map (fun f => (f, true)))).1, o = none)
    (hcap : 3200 ≤
      (speechConcat (frames.map (fun f => (f, true)))).length + chunk.length) :
    AccState.add ⟨1/10, 16000⟩
        (addRun ⟨1/10, 16000⟩ AccState.init
          (frames.map (fun f => (f, true)))).2 chunk true =
      (some (speechConcat (frames.map (fun f => (f, true))) ++ chunk),
        AccState.init)
    ∧ 3200 ≤ (speechConcat (frames.map (fun f => (f, true))) ++ chunk).length := by
  have hb : (addRun ⟨1/10, 16000⟩ AccState.init
      (frames.map (fun f => (f, true)))).2.buffer =
      speechConcat (frames.map (fun f => (f, true))) := by
    rw [addRun_none_buffer ⟨1/10, 16000⟩ (frames.map (fun f => (f, true)))
      AccState.init h]
    rfl
  have hm : (AccConfig.maxBytes ⟨1/10, 16000⟩) = 3200 :=
    maxBytes_eq _ _ (by norm_num)
  constructor
  · unfold AccState.add
    rw [hb, hm]
    simp only [if_true]
    rw [if_pos (by simpa [List.length_append] using hcap)]
  · simpa [List.length_append] using hcap

/-- Witness for C2 at a concrete run: no prior frames and a single
3200-byte speech chunk. -/
theorem C2_cap_returns_whole_buffer_witness :
    AccState.add ⟨1/10, 16000⟩
        (addRun ⟨1/10, 16000⟩ AccState.init
          (([] : List (List ℕ)).map (fun f => (f, true)))).2
        (List.replicate 3200 0) true =
      (some (speechConcat (([] : List (List ℕ)).map (fun f => (f, true))) ++
          List.replicate 3200 0),
        AccState.init)
    ∧ 3200 ≤ (speechConcat (([] : List (List ℕ)).map (fun f => (f, true))) ++
        List.replicate 3200 0).length :=
  C2_cap_returns_whole_buffer [] (List.replicate 3200 0)
    (by simp [addRun])
    (by rw [List.length_replicate]; norm_num [speechConcat])

/-- A `toggle` call that passes the debounce check stamps
`last_toggle_time` with the current time. -/
theorem toggle_lastToggleTime (W : ℚ) (s : ToggleState) (now : ℚ)
    (a b c e : Bool) (h : ¬ (now - s.lastToggleTime < W)) :
    (toggle W s now a b c e).state.lastToggleTime = now := by
  unfold toggle checkDebounce
  rw [if_neg h]
  by_cases hr : s.isRecording = true
  · simp [hr]
  · simp only [Bool.not_eq_true] at hr
    simp only [hr]
    by_cases hab : a ∧ b
    · simp [hab]
    · simp [hab]

/-- `toggle` returns `self._is_recording` as it stands at the end of the
call, in every branch. -/
theorem toggle_returned (W : ℚ) (s : ToggleState) (now : ℚ) (a b c e : Bool) :
    (toggle W s now a b c e).returned =
      (toggle W s now a b c e).state.isRecording := by
  unfold toggle checkDebounce
  by_cases h : now - s.lastToggleTime < W
  · rw [if_pos h]
    rfl
  · rw [if_neg h]
    by_cases hr : s.isRecording = true
    · simp [hr]
    · simp only [Bool.not_eq_true] at hr
      simp only [hr]
      by_cases hab : a ∧ b
      · simp [hab]
      · simp [hab]

/-- A `toggle` call inside the debounce window is ignored: unchanged state,
no callbacks, the current recording flag returned. -/
theorem toggle_debounced (W : ℚ) (s : ToggleState) (now : ℚ) (a b c e : Bool)
    (h : now - s.lastToggleTime < W) :
    toggle W s now a b c e = ⟨s, s.isRecording, false, false⟩ := by
  unfold toggle checkDebounce
  rw [if_pos h]
  rfl

/-- Claim C5: after a first `toggle()` at time `t` that performed a
transition, a second `toggle()` at `t + d` with `0 ≤ d < W` performs no
transition — the state is unchanged, neither callback fires — and returns
the recording state the first call established. -/
theorem C5_debounce_second_call (W t d : ℚ) (s : ToggleState)
    (a b c e a' b' c' e' : Bool)
    (hfirst : W ≤ t - s.lastToggleTime) (hd0 : 0 ≤ d) (hdW : d < W) :
    (toggle W (toggle W s t a b c e).state (t + d) a' b' c' e').state =
      (toggle W s t a b c e).state
    ∧ (toggle W (toggle W s t a b c e).state (t + d) a' b' c' e').returned =
      (toggle W s t a b c e).returned
    ∧ (toggle W (toggle W s t a b c e).state (t + d) a' b' c' e').startFired =
      false
    ∧ (toggle W (toggle W s t a b c e).state (t + d) a' b' c' e').stopFired =
      false := by
  have h1 : (toggle W s t a b c e).state.lastToggleTime = t :=
    toggle_lastToggleTime W s t a b c e (not_lt.mpr hfirst)
  have h2 : (t + d) - (toggle W s t a b c e).state.lastToggleTime < W := by
    rw [h1]; linarith
  rw [toggle_debounced W _ (t + d) a' b' c' e' h2]
  exact ⟨rfl, (toggle_returned W s t a b c e).symm, rfl, rfl⟩

/-- Witness for C5: debounce window 500 ms, first toggle at t=1000 from the
initial state, second toggle 100 ms later. -/
theorem C5_debounce_second_call_witness :
    (toggle 500 (toggle 500 ToggleState.init 1000 true false true false).state
        (1000 + 100) true false true false).state =
      (toggle 500 ToggleState.init 1000 true false true false).state
    ∧ (toggle 500 (toggle 500 ToggleState.init 1000 true false true
        false).state (1000 + 100) true false true false).returned =
      (toggle 500 ToggleState.init 1000 true false true false).returned
    ∧ (toggle 500 (toggle 500 ToggleState.init 1000 true false true
        false).state (1000 + 100) true false true false).startFired = false
    ∧ (toggle 500 (toggle 500 ToggleState.init 1000 true false true
        false).state (1000 + 100) true false true false).stopFired = false :=
  C5_debounce_second_call 500 1000 100 ToggleState.init
    true false true false true false true false
    (by norm_num [ToggleState.init]) (by norm_num) (by norm_num)

/-- Claim C6: a `toggle()` outside the debounce window while not recording,
whose `on_start` callback raises, leaves `is_recording` false (the start
transition is rolled back) and returns false; the exception is caught inside
`toggle` (the embedding is a total function), and the callback did fire. -/
theorem C6_failed_start_rollback (W t : ℚ) (s : ToggleState) (c e : Bool)
    (hrec : s.isRecording = false) (h : W ≤ t - s.lastToggleTime) :
    (toggle W s t true true c e).state.isRecording = false
    ∧ (toggle W s t true true c e).returned = false
    ∧ (toggle W s t true true c e).startFired = true := by
  unfold toggle checkDebounce
  rw [if_neg (not_lt.mpr h)]
  simp [hrec]

/-- Witness for C6: window 500 ms, toggle at t=600 from the initial state
with a raising `on_start`. -/
theorem C6_failed_start_rollback_witness :
    (toggle 500 ToggleState.init 600 true true true false).state.isRecording =
      false
    ∧ (toggle 500 ToggleState.init 600 true true true false).returned = false
    ∧ (toggle 500 ToggleState.init 600 true true true false).startFired =
      true :=
  C6_failed_start_rollback 500 600 ToggleState.init true false rfl
    (by norm_num [ToggleState.init])

/-- Claim C10: a `toggle()` outside the debounce window while recording
leaves `is_recording` false even when `on_stop` raises — the stop transition
is not rolled back — and the exception is caught inside `toggle`. -/
theorem C10_stop_not_rolled_back (W t : ℚ) (s : ToggleState) (a b : Bool)
    (hrec : s.isRecording = true) (h : W ≤ t - s.lastToggleTime) :
    (toggle W s t a b true true).state.isRecording = false
    ∧ (toggle W s t a b true true).returned = false
    ∧ (toggle W s t a b true true).stopFired = true := by
  unfold toggle checkDebounce
  rw [if_neg (not_lt.mpr h)]
  simp [hrec]

/-- Witness for C10: window 500 ms, toggle at t=600 while recording with a
raising `on_stop`. -/
theorem C10_stop_not_rolled_back_witness :
    (toggle 500 ⟨true, 0⟩ 600 true false true true).state.isRecording = false
    ∧ (toggle 500 ⟨true, 0⟩ 600 true false true true).returned = false
    ∧ (toggle 500 ⟨true, 0⟩ 600 true false true true).stopFired = true :=
  C10_stop_not_rolled_back 500 600 ⟨true, 0⟩ true false rfl (by norm_num)

/-- Claim C7 is false as stated: `stt_duration_ms` is computed inside the
`if SPEECH_END in self._timestamps` guard, so with SttStart=10 and SttEnd=50
both present but no SpeechEnd mark, `get_measurement` leaves
`stt_duration_ms = 0`, not `50 - 10`. -/
theorem C7_counterexample :
    (getMeasurement ⟨none, some 10, some 50, none, none⟩ 0).sttDurationMs = 0
    ∧ (0 : ℚ) ≠ 50 - 10 := by
  constructor
  · rfl
  · norm_num

/-- Claim C7 (amended): whenever the SpeechEnd, SttStart and SttEnd marks are
all present — regardless of the injection marks — `get_measurement` returns
`stt_duration_ms` equal to the SttEnd timestamp minus the SttStart
timestamp. -/
theorem C7_stt_duration (ts : TimerState) (tl : ℕ) (se st en : ℚ)
    (h1 : ts.speechEnd = some se) (h2 : ts.sttStart = some st)
    (h3 : ts.sttEnd = some en) :
    (getMeasurement ts tl).sttDurationMs = en - st := by
  rcases ts with ⟨os, ot, oe, oj, oi⟩
  simp only at h1 h2 h3
  subst h1; subst h2; subst h3
  cases oj <;> cases oi <;> simp [getMeasurement]

/-- Witness for C7 at the spec's concrete marks SpeechEnd=0, SttStart=10,
SttEnd=50, InjectionStart=55, InjectionEnd=70: stt_duration 40 and
total_latency 70. -/
theorem C7_stt_duration_witness :
    (getMeasurement ⟨some 0, some 10, some 50, some 55, some 70⟩
        0).sttDurationMs = 40
    ∧ (getMeasurement ⟨some 0, some 10, some 50, some 55, some 70⟩
        0).totalLatencyMs = 70 := by
  constructor
  · have h := C7_stt_duration ⟨some 0, some 10, some 50, some 55, some 70⟩
      0 0 10 50 rfl rfl rfl
    rw [h]
    norm_num
  · simp [getMeasurement]

/-- Claim C8: right after logging `m` into any history (of positive
capacity), `check_target` compares exactly `m.total_latency_ms` against the
target — independent of all earlier measurements — and `check_target` is
true on an empty history. -/
theorem C8_check_target_recent (lg : LoggerState) (m : Measurement)
    (target : ℚ) (h : 1 ≤ lg.maxHistory) :
    ((lg.log m).checkTarget target = decide (m.totalLatencyMs ≤ target))
    ∧ (lg.measurements = [] → lg.checkTarget target = true) := by
  constructor
  · have hk : (lg.measurements ++ [m]).length - lg.maxHistory ≤
        lg.measurements.length := by
      rw [List.length_append]
      simp only [List.length_cons, List.length_nil]
      omega
    have hlast : ((lg.log m).measurements).getLast? = some m := by
      show ((lg.measurements ++ [m]).drop
        ((lg.measurements ++ [m]).length - lg.maxHistory)).getLast? = some m
      rw [List.drop_append_of_le_length hk]
      exact List.getLast?_append_cons _ m []
    unfold LoggerState.checkTarget
    rw [hlast]
  · intro he
    unfold LoggerState.checkTarget
    rw [he]
    rfl

/-- Witness for C8: from the fresh logger (capacity 1000), logging
total_latency 600 makes `check_target(500)` false, logging 400 makes it
true, and the empty history gives true. -/
theorem C8_check_target_recent_witness :
    ((LoggerState.init.log { totalLatencyMs := 600 }).checkTarget 500 = false)
    ∧ ((LoggerState.init.log { totalLatencyMs := 400 }).checkTarget 500 = true)
    ∧ (LoggerState.init.checkTarget 500 = true) := by
  refine ⟨?_, ?_, ?_⟩
  · rw [(C8_check_target_recent LoggerState.init { totalLatencyMs := 600 } 500
      (by norm_num [LoggerState.init])).1]
    rfl
  · rw [(C8_check_target_recent LoggerState.init { totalLatencyMs := 400 } 500
      (by norm_num [LoggerState.init])).1]
    rfl
  · exact (C8_check_target_recent LoggerState.init { totalLatencyMs := 0 } 500
      (by norm_num [LoggerState.init])).2 rfl

/-- Every character of the injection loop is counted exactly once: as a
success or as a failure. -/
theorem injectLoop_count (ok : ℕ → Bool) :
    ∀ (text : List Char) (i : ℕ),
      (injectLoop ok i text).1 + (injectLoop ok i text).2.length =
        text.length := by
  intro text
  induction text with
  | nil => intro i; simp [injectLoop]
  | cons c rest ih =>
    intro i
    unfold injectLoop
    by_cases h : ok i = true
    · simp only [h, if_true, List.length_cons]
      have := ih (i + 1)
      omega
    · simp only [Bool.not_eq_true] at h
      simp only [h, Bool.false_eq_true, if_false, List.length_cons]
      have := ih (i + 1)
      omega

/-- Claim C9: for every text and every behaviour of the per-character
`SendInput` call, `inject` accounts for each character exactly once
(`characters_sent + |failed_characters| = |text|`; an individual failure
never aborts the rest), and `success` holds iff no character failed. -/
theorem C9_inject_accounting (ok : ℕ → Bool) (text : List Char) :
    (inject ok text).charactersSent +
        (inject ok text).failedCharacters.length = text.length
    ∧ ((inject ok text).success = true ↔
        (inject ok text).failedCharacters = []) := by
  unfold inject
  by_cases he : text.isEmpty
  · rw [if_pos he]
    have : text = [] := List.isEmpty_iff.mp he
    subst this
    simp
  · rw [if_neg he]
    refine ⟨injectLoop_count ok text 0, ?_⟩
    simp

/-- `_process_chunk` reports `is_speech` exactly when the updated debounced
state is Speech, and carries that state in its result. -/
theorem processChunk_result (cfg : SileroConfig) (conf : ℚ) (c : VadCore) :
    (processChunk cfg conf c).1.isSpeech =
      decide ((processChunk cfg conf c).2.state = VoiceState.SPEECH)
    ∧ (processChunk cfg conf c).1.state = (processChunk cfg conf c).2.state :=
  ⟨rfl, rfl⟩

/-- The processing loop emits exactly one decision per full 512-sample
window held in the buffer. -/
theorem sileroLoop_length (model : List ℚ → ℚ) (cfg : SileroConfig)
    (c : VadCore) (buf : List ℚ) :
    (sileroLoop model cfg c buf).1.length = buf.length / 512 := by
  induction c, buf using sileroLoop.induct model cfg with
  | case1 c buf h ih =>
    rw [sileroLoop, if_pos h]
    simp only [List.length_cons]
    rw [ih, List.length_drop, Nat.div_eq_sub_div (by norm_num) h]
  | case2 c buf h =>
    rw [sileroLoop, if_neg h, Nat.div_eq_of_lt (by omega)]
    rfl

/-- If the loop emitted no decision, the debounce core is untouched. -/
theorem sileroLoop_nil_core (model : List ℚ → ℚ) (cfg : SileroConfig)
    (c : VadCore) (buf : List ℚ)
    (h : (sileroLoop model cfg c buf).1 = []) :
    (sileroLoop model cfg c buf).2.1 = c := by
  rw [sileroLoop] at h ⊢
  by_cases h5 : 512 ≤ buf.length
  · rw [if_pos h5] at h
    exact absurd h (by simp)
  · rw [if_neg h5]

/-- The last decision the loop emitted reflects the final debounced core. -/
theorem sileroLoop_getLast (model : List ℚ → ℚ) (cfg : SileroConfig)
    (c : VadCore) (buf : List ℚ) :
    ∀ d, (sileroLoop model cfg c buf).1.getLast? = some d →
      d.isSpeech =
        decide ((sileroLoop model cfg c buf).2.1.state = VoiceState.SPEECH) := by
  induction c, buf using sileroLoop.induct model cfg with
  | case1 c buf h ih =>
    intro d hd
    rw [sileroLoop, if_pos h] at hd ⊢
    simp only at hd ⊢
    rcases hrest : (sileroLoop model cfg
        (processChunk cfg (model (buf.take 512)) c).2 (buf.drop 512)).1 with
      _ | ⟨y, ys⟩
    · rw [hrest] at hd
      simp only [List.getLast?_singleton, Option.some_inj] at hd
      have hcore := sileroLoop_nil_core model cfg
        (processChunk cfg (model (buf.take 512)) c).2 (buf.drop 512) hrest
      rw [hcore, ← hd]
      exact (processChunk_result cfg (model (buf.take 512)) c).1
    · rw [hrest] at hd
      rw [List.getLast?_cons_cons] at hd
      have := ih d (by rw [hrest]; exact hd)
      exact this
  | case2 c buf h =>
    intro d hd
    rw [sileroLoop, if_neg h] at hd
    exact absurd hd (by simp)

/-- Claim C3 is false as stated: the two variants do not expose an identical
`process` contract.  On a 100-sample frame — insufficient for a 512-sample
window — `SileroVAD.process` returns zero decisions, while
`SimpleEnergyVAD.process` returns a decision regardless: its result is a
single `VADResult` (here fully computed), not a sequence of zero or more. -/
theorem C3_counterexample :
    (sileroProcess (fun _ => 1) ⟨1/2, 250, 100⟩ SileroState.init
        (List.replicate 100 0)).1 = []
    ∧ (energyProcess (fun _ => -100) ⟨-40, 250, 100, 16000⟩ EnergyState.init
        (List.replicate 100 0)).1 = ⟨false, 0, VoiceState.SILENCE⟩ := by
  constructor
  · have hlen : (sileroProcess (fun _ => 1) ⟨1/2, 250, 100⟩ SileroState.init
        (List.replicate 100 0)).1.length = 0 := by
      show (sileroLoop (fun _ => 1) ⟨1/2, 250, 100⟩ SileroState.init.core
        (SileroState.init.buffer ++
          bytesToFloat (List.replicate 100 0))).1.length = 0
      rw [sileroLoop_length]
      rw [show SileroState.init.buffer = ([] : List ℚ) from rfl,
        List.nil_append]
      rw [bytesToFloat, List.length_map, List.length_replicate]
    exact List.length_eq_zero.mp hlen
  · unfold energyProcess
    norm_num [EnergyState.init, List.length_replicate]
    decide

/-- Claim C3 (amended): both variants expose `reset`, `process` and
`is_speech`, and the `is_speech` contract is uniform — for any frame, either
variant's `is_speech` returns whether the debounced state after consuming
the frame is Speech — so substitution is transparent for `is_speech`
callers; but `process` differs: `SileroVAD.process` emits one decision per
full 512-sample window accumulated (zero when insufficient), while
`SimpleEnergyVAD.process` returns exactly one decision per call. -/
theorem C3_variant_contracts (model : List ℚ → ℚ) (cfg : SileroConfig)
    (s : SileroState) (frame : List ℤ) (dbOf : List ℤ → ℚ)
    (ecfg : EnergyConfig) (es : EnergyState) :
    (sileroProcess model cfg s frame).1.length =
      (s.buffer.length + frame.length) / 512
    ∧ (sileroIsSpeech model cfg s frame).1 =
      decide ((sileroIsSpeech model cfg s frame).2.core.state =
        VoiceState.SPEECH)
    ∧ (energyIsSpeech dbOf ecfg es frame).1 =
      decide ((energyIsSpeech dbOf ecfg es frame).2.state =
        VoiceState.SPEECH) := by
  refine ⟨?_, ?_, rfl⟩
  · show (sileroLoop model cfg s.core (s.buffer ++ bytesToFloat frame)).1.length
      = (s.buffer.length + frame.length) / 512
    rw [sileroLoop_length, List.length_append, bytesToFloat, List.length_map]
  · unfold sileroIsSpeech
    rcases hlast : (sileroProcess model cfg s frame).1.getLast? with _ | d
    · simp only [hlast]
    · simp only [hlast]
      exact sileroLoop_getLast model cfg s.core
        (s.buffer ++ bytesToFloat frame) d hlast

/-- Iterated `_process_chunk` over a list of per-window model scores
(the `while` loop of `process` restricted to the debounce core). -/
def runChunks (cfg : SileroConfig) (c : VadCore) (confs : List ℚ) : VadCore :=
  confs.foldl (fun st conf => (processChunk cfg conf st).2) c

/-- The debounced state reached after `k` consecutive speech-classified
32 ms windows with `min_speech_duration_ms = 150`. -/
def speechStateAfter (k : ℕ) : VoiceState :=
  if (150 : ℚ) ≤ (k : ℚ) * 32 then VoiceState.SPEECH else VoiceState.SILENCE

theorem frameDurationMs_eq : frameDurationMs = 32 := by
  norm_num [frameDurationMs]

/-- Invariant of the hysteresis machine under consecutive speech windows:
the speech run counter advances and the debounced state tracks
`speech_run * 32 ≥ 150`, for any positive silence floor. -/
theorem runChunks_speech_invariant (thr minSil : ℚ) (hSil : 0 < minSil) :
    ∀ (confs : List ℚ) (k : ℕ), (∀ x ∈ confs, thr ≤ x) →
      runChunks ⟨thr, 150, minSil⟩ ⟨speechStateAfter k, k, 0⟩ confs =
        ⟨speechStateAfter (k + confs.length), k + confs.length, 0⟩ := by
  intro confs
  induction confs with
  | nil => intro k _; simp [runChunks]
  | cons x xs ih =>
    intro k h
    have hx : thr ≤ x := h x (List.mem_cons_self x xs)
    have hrest : ∀ y ∈ xs, thr ≤ y := fun y hy => h y (List.mem_cons_of_mem x hy)
    have hfold : runChunks ⟨thr, 150, minSil⟩ ⟨speechStateAfter k, k, 0⟩
        (x :: xs) =
        runChunks ⟨thr, 150, minSil⟩
          (processChunk ⟨thr, 150, minSil⟩ x ⟨speechStateAfter k, k, 0⟩).2
          xs := rfl
    have hstep : (processChunk ⟨thr, 150, minSil⟩ x
        ⟨speechStateAfter k, k, 0⟩).2 =
        ⟨speechStateAfter (k + 1), k + 1, 0⟩ := by
      unfold processChunk
      simp only [decide_eq_true (by exact hx : thr ≤ x), if_true,
        frameDurationMs_eq]
      by_cases hk : (150 : ℚ) ≤ (k : ℚ) * 32
      · have hs : speechStateAfter k = VoiceState.SPEECH := by
          simp [speechStateAfter, hk]
        have hs1 : speechStateAfter (k + 1) = VoiceState.SPEECH := by
          have hr : ((k : ℚ) + 1) * 32 = (k : ℚ) * 32 + 32 := by ring
          unfold speechStateAfter
          rw [if_pos (by push_cast; rw [hr]; linarith)]
        simp only [hs, hs1]
        simp [not_le.mpr hSil]
      · have hs : speechStateAfter k = VoiceState.SILENCE := by
          simp [speechStateAfter, hk]
        simp only [hs]
        simp [speechStateAfter]
    rw [hfold, hstep, ih _ hrest]
    have : k + 1 + xs.length = k + (xs.length + 1) := by omega
    rw [this]
    rfl

/-- Claim C4: from the reset Silence state with `min_speech_duration_ms=150`
and 32 ms windows (512 samples at 16 kHz), after `n` consecutive
speech-classified windows the debounced state is Speech exactly when
`n * 32 ≥ 150` — so 4 consecutive speech windows leave it Silence and the
5th first flips it to Speech (for any positive silence floor; the scores
are arbitrary values at or above the threshold). -/
theorem C4_hysteresis (thr minSil : ℚ) (confs : List ℚ)
    (hSil : 0 < minSil) (h : ∀ x ∈ confs, thr ≤ x) :
    (runChunks ⟨thr, 150, minSil⟩ VadCore.init confs).state =
      if (150 : ℚ) ≤ (confs.length : ℚ) * 32 then VoiceState.SPEECH
      else VoiceState.SILENCE := by
  have h0 : VadCore.init = ⟨speechStateAfter 0, 0, 0⟩ := by
    unfold VadCore.init speechStateAfter
    norm_num
  rw [h0, runChunks_speech_invariant thr minSil hSil confs 0 h]
  simp [speechStateAfter]

/-- Witness for C4: threshold 1/2, silence floor 50 ms, all scores 1;
4 windows stay Silence, 5 windows reach Speech. -/
theorem C4_hysteresis_witness :
    (runChunks ⟨1/2, 150, 50⟩ VadCore.init (List.replicate 4 1)).state =
      VoiceState.SILENCE
    ∧ (runChunks ⟨1/2, 150, 50⟩ VadCore.init (List.replicate 5 1)).state =
      VoiceState.SPEECH := by
  constructor
  · have h := C4_hysteresis (1/2) 50 (List.replicate 4 1) (by norm_num)
      (fun x hx => by rw [List.eq_of_mem_replicate hx]; norm_num)
    rw [h, List.length_replicate]
    norm_num
  · have h := C4_hysteresis (1/2) 50 (List.replicate 5 1) (by norm_num)
      (fun x hx => by rw [List.eq_of_mem_replicate hx]; norm_num)
    rw [h, List.length_replicate]
    norm_num

end WVA
